import Mathlib

/-!
# Verification of the lidify sidecars

Shallow embedding of the two FastAPI sidecars of the lidify repository:

* `src/services/ytmusic-streamer/app.py` (Channel Streaming Sidecar)
* `src/services/tidal-downloader/app.py` (Track Download Sidecar)

Python dicts holding process state (`_stream_cache`, `_ytmusic_instances`)
and the on-disk credential files are modelled as association lists keyed by
strings; dict assignment is `listInsert` (the new binding shadows and the
stale binding is dropped), `dict.pop` / file deletion is `listErase`, and
`dict.get` / file reading is `List.lookup`.  Calls into the external
platform libraries (`yt_dlp`, `ytmusicapi`, `tiddl`) are modelled as
explicit oracle parameters describing the outcome of the call, since those
libraries are outside the repository.
-/

namespace Lidify

/-- Dict lookup `d.get(k)` on an association list (first binding wins). -/
def listGet {β : Type} : List (String × β) → String → Option β
  | [], _ => none
  | (a, b) :: t, k => if a = k then some b else listGet t k

/-- Dict deletion `d.pop(k, None)` / `path.unlink()`. -/
def listErase {β : Type} : List (String × β) → String → List (String × β)
  | [], _ => []
  | (a, b) :: t, k => if a = k then listErase t k else (a, b) :: listErase t k

/-- Dict assignment `d[k] = v`: the new binding shadows any old one. -/
def listInsert {β : Type} (l : List (String × β)) (k : String) (v : β) :
    List (String × β) :=
  (k, v) :: listErase l k

theorem listGet_listInsert {β : Type} (l : List (String × β)) (k : String) (v : β) :
    listGet (listInsert l k v) k = some v := by
  simp [listInsert, listGet]

theorem listGet_listErase {β : Type} (l : List (String × β)) (k : String) :
    listGet (listErase l k) k = none := by
  induction l with
  | nil => rfl
  | cons p t ih =>
    obtain ⟨a, b⟩ := p
    by_cases h : a = k
    · simpa [listErase, h] using ih
    · simpa [listErase, listGet, h] using ih

theorem listGet_listInsert_ne {β : Type} (l : List (String × β)) (k k2 : String)
    (v : β) (h : k2 ≠ k) :
    listGet (listInsert l k v) k2 = listGet l k2 := by
  have hk : ¬ k = k2 := fun hh => h hh.symm
  have base : ∀ m : List (String × β), listGet (listErase m k) k2 = listGet m k2 := by
    intro m
    induction m with
    | nil => rfl
    | cons p t ih =>
      obtain ⟨a, b⟩ := p
      by_cases ha : a = k
      · simp [listErase, listGet, ha, hk, ih]
      · simp [listErase, listGet, ha, ih]
  simp [listInsert, listGet, hk, base l]

theorem listGet_listErase_ne {β : Type} (l : List (String × β)) (k k2 : String)
    (h : k2 ≠ k) :
    listGet (listErase l k) k2 = listGet l k2 := by
  have hk : ¬ k = k2 := fun hh => h hh.symm
  induction l with
  | nil => rfl
  | cons p t ih =>
    obtain ⟨a, b⟩ := p
    by_cases ha : a = k
    · simp [listErase, listGet, ha, hk, ih]
    · simp [listErase, listGet, ha, ih]

/-! ## Channel sidecar: stream-URL cache and `yt-dlp` extraction

From `src/services/ytmusic-streamer/app.py`. -/

/-- `STREAM_CACHE_TTL = 5 * 60 * 60` (5 hours). -/
def STREAM_CACHE_TTL : Nat := 5 * 60 * 60

/-- A value of `_stream_cache`: the result dict built in
`_get_stream_url_sync`. -/
structure StreamEntry where
  url : String
  content_type : String
  duration : Nat
  title : String
  artist : String
  expires_at : Nat
  abr : Nat
  acodec : String
deriving DecidableEq

/-- `_stream_cache`, keyed by `"{user_id}:{video_id}"`. -/
abbrev StreamCache := List (String × StreamEntry)

/-- One entry of `info.get("formats", [])` as inspected by the fallback
scan in `_get_stream_url_sync`; `none` models an absent key. -/
structure YFormat where
  acodec : Option String
  vcodec : Option String
  abr : Option Nat
  url : Option String
deriving DecidableEq

/-- The fields of the `yt-dlp` info dict read by `_get_stream_url_sync`. -/
structure YInfo where
  url : Option String
  formats : List YFormat
  audio_ext : Option String
  duration : Option Nat
  title : Option String
  artist : Option String
  uploader : Option String
  abr : Option Nat
  acodec : Option String
deriving DecidableEq

/-- Outcome of `ydl.extract_info(url, download=False)`: a falsy info dict,
an info dict, or a raised exception (carrying `str(e)`). -/
inductive ExtractOutcome where
  | noInfo
  | info (i : YInfo)
  | raises (msg : String)
deriving DecidableEq

/-- The filter in the formats fallback:
`f.get("acodec") != "none" and f.get("vcodec") in ("none", None)`. -/
def isAudioOnly (f : YFormat) : Bool :=
  (f.acodec != some "none") && (f.vcodec == some "none" || f.vcodec == none)

/-- Sort key `f.get("abr", 0) or 0`. -/
def abrKey (f : YFormat) : Nat := f.abr.getD 0

/-- `audio_formats.sort(key=..., reverse=True)`: stable descending sort by
`abrKey` (Python `list.sort` is stable). -/
def sortByAbrDesc (l : List YFormat) : List YFormat :=
  l.mergeSort (fun f g => abrKey g ≤ abrKey f)

/-- The body of the `with yt_dlp.YoutubeDL(...)` block: produce the stream
URL (with the audio-only formats fallback) or the raised failure text. -/
def extractStreamUrl (o : ExtractOutcome) : Except String (String × YInfo) :=
  match o with
  | .raises m => .error m
  | .noInfo => .error "No info extracted"
  | .info i =>
    match i.url with
    | some u => .ok (u, i)
    | none =>
      let audio_formats := sortByAbrDesc (i.formats.filter isAudioOnly)
      match audio_formats.head? with
      | some f =>
        match f.url with
        | some u => .ok (u, i)
        | none => .error "No audio stream URL found"
      | none => .error "No audio stream URL found"

/-- `info.get("artist") or info.get("uploader", "")` (Python `or` takes the
uploader when the artist is missing or empty). -/
def artistOf (i : YInfo) : String :=
  match i.artist with
  | some a => if a = "" then i.uploader.getD "" else a
  | none => i.uploader.getD ""

/-- The `result` dict cached by `_get_stream_url_sync` on success. -/
def buildStreamEntry (u : String) (i : YInfo) (now : Nat) : StreamEntry where
  url := u
  content_type := i.audio_ext.getD "m4a"
  duration := i.duration.getD 0
  title := i.title.getD ""
  artist := artistOf i
  expires_at := now + STREAM_CACHE_TTL
  abr := i.abr.getD 0
  acodec := i.acodec.getD ""

/-- The `format_map` literal of `_get_stream_url_sync`. -/
def format_map : List (String × String) :=
  [("LOW", "ba[abr<=64]/worstaudio/ba"),
   ("MEDIUM", "ba[abr<=128]/ba[abr<=192]/ba"),
   ("HIGH", "ba[abr<=256]/ba"),
   ("LOSSLESS", "ba/bestaudio")]

/-- `fmt = format_map.get(quality, format_map["HIGH"])`. -/
def selectFormat (quality : String) : String :=
  (listGet format_map quality).getD ((listGet format_map "HIGH").getD "")

/-- A 502 `HTTPException` raised by `_get_stream_url_sync`. -/
inductive StreamErr where
  | http (status : Nat) (detail : String)
deriving DecidableEq

/-- The extraction path of `_get_stream_url_sync` (cache miss): run the
extractor on the selected format, cache and return the result on success,
surface a 502 and leave the cache untouched on failure.  `extract` is the
oracle for `yt_dlp` given the chosen format selector string. -/
def stream_resolve (cache : StreamCache) (now : Nat)
    (extract : String → ExtractOutcome) (cache_key quality : String) :
    Except StreamErr StreamEntry × StreamCache :=
  match extractStreamUrl (extract (selectFormat quality)) with
  | .error m => (.error (.http 502 ("Failed to extract stream: " ++ m)), cache)
  | .ok (u, i) =>
    let result := buildStreamEntry u i now
    (.ok result, listInsert cache cache_key result)

/-- `_get_stream_url_sync(user_id, video_id, quality)` at time `now`:
serve a cached entry whose `expires_at` is strictly in the future,
otherwise extract, cache and return. -/
def get_stream_url_sync (cache : StreamCache) (now : Nat)
    (extract : String → ExtractOutcome)
    (user_id video_id quality : String) :
    Except StreamErr StreamEntry × StreamCache :=
  let cache_key := user_id ++ ":" ++ video_id
  match listGet cache cache_key with
  | some cached =>
    if now < cached.expires_at then (.ok cached, cache)
    else stream_resolve cache now extract cache_key quality
  | none => stream_resolve cache now extract cache_key quality

/-! ## Channel sidecar: per-user credential files and YTMusic handles -/

/-- A `YTMusic` instance as far as this service observes it: the oauth file
contents and the optional client credentials it was built from.  Whether
construction succeeds is decided by the `loadOk` oracle (the `try` block of
`_get_ytmusic` wraps `json.loads` and the `YTMusic` constructor). -/
structure Handle where
  oauth : String
  creds : Option (String × String)
deriving DecidableEq

/-- The process state of the ytmusic-streamer service:
`oauth_<user_id>.json` files, `client_creds_<user_id>.json` files,
`_ytmusic_instances`, and `_stream_cache`. -/
structure YTState where
  oauthFiles : List (String × String)
  credsFiles : List (String × (String × String))
  instances : List (String × Handle)
  streamCache : StreamCache
deriving DecidableEq

/-- `_invalidate_ytmusic(user_id)`: `_ytmusic_instances.pop(user_id, None)`. -/
def invalidate_ytmusic (st : YTState) (user_id : String) : YTState :=
  { st with instances := listErase st.instances user_id }

/-- Result of `_get_ytmusic`: a cache hit, a freshly built instance, or a
401 `HTTPException`. -/
inductive GetYT where
  | cached (h : Handle)
  | built (h : Handle)
  | err401 (detail : String)
deriving DecidableEq

/-- The no-cache branch of `_get_ytmusic`: load the oauth file (and the
client-credentials file, when present) from disk and construct a handle.
`loadOk` is the oracle for whether reading/constructing from the oauth file
contents succeeds. -/
def build_from_files (loadOk : String → Bool) (st : YTState) (user_id : String) :
    GetYT :=
  match listGet st.oauthFiles user_id with
  | some txt =>
    if loadOk txt then GetYT.built ⟨txt, listGet st.credsFiles user_id⟩
    else GetYT.err401 "OAuth credentials invalid. Please re-authenticate."
  | none => GetYT.err401 "Not authenticated. Please set up OAuth first."

/-- `_get_ytmusic(user_id)`: return the cached instance when present,
otherwise build one from the credential files and cache it. -/
def get_ytmusic (loadOk : String → Bool) (st : YTState) (user_id : String) :
    GetYT × YTState :=
  match listGet st.instances user_id with
  | some h => (GetYT.cached h, st)
  | none =>
    match build_from_files loadOk st user_id with
    | GetYT.built h =>
      (GetYT.built h, { st with instances := listInsert st.instances user_id h })
    | r => (r, st)

/-- Body of `POST /auth/restore` (`req.json()` fields it reads). -/
structure RestoreBody where
  oauth_json : Option String
  client_id : Option String
  client_secret : Option String

/-- Response of `/auth/restore`: ok, or a 400 `HTTPException`. -/
inductive RestoreResult where
  | ok
  | err400 (detail : String)
deriving DecidableEq

/-- `POST /auth/restore?user_id=`: validate the oauth JSON, write the
credential file (and the client-credentials file when both id and secret
are supplied and non-empty), then invalidate the cached handle.
`parseOk` is the oracle for `json.loads(oauth_json)` succeeding; a missing
or falsy (empty) `oauth_json` is a 400.  `restore_write` is the
file-writing part of the route. -/
def restore_write (st : YTState) (user_id oj : String) (body : RestoreBody) :
    YTState :=
  let st1 := { st with oauthFiles := listInsert st.oauthFiles user_id oj }
  match body.client_id, body.client_secret with
  | some ci, some cs =>
    if ci = "" ∨ cs = "" then st1
    else { st1 with credsFiles := listInsert st1.credsFiles user_id (ci, cs) }
  | _, _ => st1

def auth_restore (parseOk : String → Bool) (st : YTState) (user_id : String)
    (body : RestoreBody) : RestoreResult × YTState :=
  match body.oauth_json with
  | none => (RestoreResult.err400 "oauth_json is required", st)
  | some oj =>
    if oj = "" then (RestoreResult.err400 "oauth_json is required", st)
    else if parseOk oj then
      (RestoreResult.ok, invalidate_ytmusic (restore_write st user_id oj body) user_id)
    else (RestoreResult.err400 "Invalid JSON in oauth_json", st)

/-- `POST /auth/clear?user_id=`: invalidate the cached handle and delete
both credential files. -/
def auth_clear (st : YTState) (user_id : String) : YTState :=
  let st1 := invalidate_ytmusic st user_id
  { st1 with
    oauthFiles := listErase st1.oauthFiles user_id
    credsFiles := listErase st1.credsFiles user_id }

/-! ## Channel sidecar: device-code poll -/

/-- The `ERROR_MESSAGES` table of `auth_device_code_poll`, in source
(insertion) order. -/
def ERROR_MESSAGES : List (String × String) :=
  [("invalid_grant",
    "The sign-in code has expired or was already used. Please start over."),
   ("expired_token", "The sign-in code has expired. Please start over."),
   ("access_denied",
    "Access was denied. Please try again and click 'Allow' on the Google page."),
   ("invalid_client",
    "OAuth client credentials are invalid. Please ask your admin to check the Client ID and Secret.")]

/-- `needle` occurs at the start of `hay` (character lists). -/
def charsStartWith : List Char → List Char → Bool
  | [], _ => true
  | _ :: _, [] => false
  | n :: ns, h :: hs => n == h && charsStartWith ns hs

/-- `needle` occurs somewhere in `hay` (character lists): Python `in`. -/
def charsContain (needle : List Char) : List Char → Bool
  | [] => needle.isEmpty
  | h :: hs => charsStartWith needle (h :: hs) || charsContain needle hs

/-- Python `needle in hay` on strings. -/
def containsSub (hay needle : String) : Bool :=
  charsContain needle.toList hay.toList

/-- Python `str(e).lower()` (per-character lowering). -/
def strLower (s : String) : String :=
  String.mk (s.toList.map Char.toLower)

/-- The substring scan over `ERROR_MESSAGES.items()` in the `except`
branch of `auth_device_code_poll`: first key occurring in `errStr` wins. -/
def lookupErrorBySubstring (errStr : String) : Option String :=
  (ERROR_MESSAGES.find? (fun p => containsSub errStr p.1)).map (fun p => p.2)

/-- Outcome of `oauth_creds.token_from_code(device_code)`: a dict carrying
an `error` field, a success dict (modelled by its serialized JSON), or a
raised exception carrying `str(e)`. -/
inductive TokenOutcome where
  | errorField (error : String)
  | success (tokenJson : String)
  | raises (msg : String)
deriving DecidableEq

/-- Response of `POST /auth/device-code/poll`: the three JSON shapes the
route returns, or a raised 500 `HTTPException`. -/
inductive PollResponse where
  | pending (error : String)
  | errorMsg (error : String)
  | success (oauth_json : String)
  | http500 (detail : String)
deriving DecidableEq

/-- `POST /auth/device-code/poll?user_id=`, given the outcome of the token
exchange.  On success the token and the client credentials are written as
the user's files and the cached handle is invalidated. -/
def auth_device_code_poll (st : YTState) (user_id : String)
    (client_id client_secret : String) (outcome : TokenOutcome) :
    PollResponse × YTState :=
  match outcome with
  | TokenOutcome.errorField e =>
    if e = "authorization_pending" ∨ e = "slow_down" then
      (PollResponse.pending e, st)
    else
      (PollResponse.errorMsg ((listGet ERROR_MESSAGES e).getD
        ("Authorization failed (" ++ e ++ "). Please try again.")), st)
  | TokenOutcome.success tokenJson =>
    let st1 :=
      { st with
        oauthFiles := listInsert st.oauthFiles user_id tokenJson
        credsFiles := listInsert st.credsFiles user_id (client_id, client_secret) }
    (PollResponse.success tokenJson, invalidate_ytmusic st1 user_id)
  | TokenOutcome.raises msg =>
    let error_str := strLower msg
    if containsSub error_str "authorization_pending" then
      (PollResponse.pending "authorization_pending", st)
    else
      match lookupErrorBySubstring error_str with
      | some friendly => (PollResponse.errorMsg friendly, st)
      | none => (PollResponse.http500 ("Failed to poll device code: " ++ msg), st)

/-! ## Channel sidecar: meaning of the `yt-dlp` format selectors

The four selector strings in `format_map` are given a denotation over the
set of available audio bitrates, so that the mapping can be compared with
the quality table of the specification (§4.2). -/

/-- One alternative of a `yt-dlp` format selector (`/`-separated). -/
inductive FormatAlt where
  | bestAudioLe (kbps : Nat)
  | bestAudio
  | worstAudio
deriving DecidableEq

/-- Translation of the four selector strings appearing in `format_map`
into their alternatives: `ba[abr<=N]` is best audio at most `N` kbps,
`ba`/`bestaudio` is best available audio, `worstaudio` is worst available
audio. -/
def selector_alts : String → List FormatAlt
  | "ba[abr<=64]/worstaudio/ba" =>
    [FormatAlt.bestAudioLe 64, FormatAlt.worstAudio, FormatAlt.bestAudio]
  | "ba[abr<=128]/ba[abr<=192]/ba" =>
    [FormatAlt.bestAudioLe 128, FormatAlt.bestAudioLe 192, FormatAlt.bestAudio]
  | "ba[abr<=256]/ba" => [FormatAlt.bestAudioLe 256, FormatAlt.bestAudio]
  | "ba/bestaudio" => [FormatAlt.bestAudio, FormatAlt.bestAudio]
  | _ => []

/-- Denotation of one alternative on the available audio bitrates. -/
def evalAlt (alt : FormatAlt) (abrs : List Nat) : Option Nat :=
  match alt with
  | FormatAlt.bestAudioLe k => (abrs.filter (fun a => a ≤ k)).max?
  | FormatAlt.bestAudio => abrs.max?
  | FormatAlt.worstAudio => abrs.min?

/-- Denotation of a selector: the first alternative that yields a format. -/
def evalSelector (alts : List FormatAlt) (abrs : List Nat) : Option Nat :=
  match alts with
  | [] => none
  | a :: rest =>
    match evalAlt a abrs with
    | some r => some r
    | none => evalSelector rest abrs

/-- Modelled from the spec: the §4.2 quality table.  LOW is best audio
at most 64 kbps, else worst available audio; MEDIUM is at most 128, else
at most 192, else best; HIGH is at most 256, else best; LOSSLESS is best
available audio with no ceiling; every other quality uses the HIGH
policy. -/
def spec_policy (quality : String) (abrs : List Nat) : Option Nat :=
  if quality = "LOW" then
    match (abrs.filter (fun a => a ≤ 64)).max? with
    | some r => some r
    | none => abrs.min?
  else if quality = "MEDIUM" then
    match (abrs.filter (fun a => a ≤ 128)).max? with
    | some r => some r
    | none =>
      match (abrs.filter (fun a => a ≤ 192)).max? with
      | some r => some r
      | none => abrs.max?
  else if quality = "LOSSLESS" then abrs.max?
  else
    match (abrs.filter (fun a => a ≤ 256)).max? with
    | some r => some r
    | none => abrs.max?

/-! ## Track sidecar: path sanitization

From `src/services/tidal-downloader/app.py`, `_sanitize_path_component`. -/

/-- The loop header `for ch in '<>:"/\|?*'`. -/
def invalid_fs_chars : List Char :=
  ['<', '>', ':', '\"', '/', '\\', '|', '?', '*']

/-- One iteration `name = name.replace(ch, "_")` on the character list of
the name (single-character pattern, so `replace` is a per-character map). -/
def replaceChar (c : Char) (s : List Char) : List Char :=
  s.map (fun a => if a = c then '_' else a)

/-- The whole replacement loop of `_sanitize_path_component`. -/
def replace_invalid (s : List Char) : List Char :=
  invalid_fs_chars.foldl (fun acc c => replaceChar c acc) s

/-- Python `str.strip(". ")`: drop characters of the set from both ends. -/
def strip_chars (cs : List Char) (s : List Char) : List Char :=
  (((s.dropWhile (fun a => cs.contains a)).reverse.dropWhile
      (fun a => cs.contains a)).reverse)

/-- `_sanitize_path_component(name)`. -/
def sanitize_path_component (s : String) : String :=
  String.mk (strip_chars ['.', ' '] (replace_invalid s.toList))

/-! ## Track sidecar: step 5 of the download algorithm

From `_download_track_sync`: write the raw bytes to `<final>.tmp`, then
either run the FLAC container extraction into the final path (removing the
temp file), or — on any extraction failure, and always for non-FLAC
extensions — rename the temp file to the final path. -/

/-- An abstract file system: path contents keyed by path. -/
abbrev FS := List (String × String)

/-- `path.write_bytes(data)` (also used for the extraction output). -/
def fs_write (fs : FS) (p data : String) : FS := listInsert fs p data

/-- `path.unlink(missing_ok=True)`. -/
def fs_remove (fs : FS) (p : String) : FS := listErase fs p

/-- `shutil.move(src, dst)`: on POSIX an existing destination is
overwritten. -/
def fs_move (fs : FS) (src dst : String) : FS :=
  match listGet fs src with
  | some d => fs_write (fs_remove fs src) dst d
  | none => fs

/-- `file_path.with_suffix(file_path.suffix + ".tmp")`. -/
def tmp_path_of (file_path : String) : String := file_path ++ ".tmp"

/-- Outcome of `extract_flac(tmp_path, file_path)`: success with the
extracted contents, or any raised failure. -/
inductive ExtractFlacOutcome where
  | ok (extracted : String)
  | fails
deriving DecidableEq

/-- The `try` block of the FLAC branch: on success `extract_flac` writes
the final path and the temp file is unlinked; on any failure the temp
file is plainly renamed to the final path. -/
def flac_finalize (eo : ExtractFlacOutcome) (fs : FS)
    (tmp_path file_path : String) : FS :=
  match eo with
  | ExtractFlacOutcome.ok data => fs_remove (fs_write fs file_path data) tmp_path
  | ExtractFlacOutcome.fails => fs_move fs tmp_path file_path

/-- Step 5 of `_download_track_sync`: FLAC extraction with rename
fallback; plain rename for every other extension. -/
def finalize_download (file_extension : String) (eo : ExtractFlacOutcome)
    (fs : FS) (tmp_path file_path : String) : FS :=
  if file_extension = ".flac" then flac_finalize eo fs tmp_path file_path
  else fs_move fs tmp_path file_path

/-! ## Track sidecar: album download -/

/-- A track as observed by the album-download loop (`album_item.item`):
its id, title and (optional) ISRC. -/
structure AlbumTrack where
  id : Nat
  title : String
  isrc : Option String
deriving DecidableEq

/-- One element of `items.items`: `item` is absent when the entry has no
`item` attribute. -/
structure AlbumItem where
  item : Option AlbumTrack
deriving DecidableEq

/-- The page object returned by
`api.get_album_items(album_id, limit=100, offset=offset)`. -/
structure AlbumItemsPage where
  items : List AlbumItem
  limit : Nat
  totalNumberOfItems : Nat
deriving DecidableEq

/-- The filter inside the paging loop: keep `album_item.item` when the
entry has an `item` attribute and that item has an `isrc` attribute. -/
def keepTracks (its : List AlbumItem) : List AlbumTrack :=
  its.filterMap (fun ai =>
    match ai.item with
    | some tr => match tr.isrc with
      | some _ => some tr
      | none => none
    | none => none)

/-- The `while True` paging loop of `download_album`, with explicit fuel:
request the page at `offset`, keep its ISRC-bearing items, advance the
offset by the page's reported `limit`, and stop once the advanced offset
reaches the page's reported `totalNumberOfItems`.  `pages` is the oracle
for `api.get_album_items` at a given offset (the request always passes
`limit=100`). -/
def fetch_album_tracks (pages : Nat → AlbumItemsPage) :
    Nat → Nat → List AlbumTrack
  | 0, _ => []
  | fuel + 1, offset =>
    if (pages offset).totalNumberOfItems ≤ offset + (pages offset).limit then
      keepTracks (pages offset).items
    else
      keepTracks (pages offset).items ++
        fetch_album_tracks pages fuel (offset + (pages offset).limit)

/-- `float(os.getenv("TIDAL_TRACK_DELAY", "3"))`: the configured delay,
kept as the raw environment string (seconds). -/
def tidal_track_delay (env : Option String) : String := env.getD "3"

/-- Observable events of the album-download loop: waiting the rate-limit
delay, and attempting one track download. -/
inductive DlEvent where
  | sleep (delay : String)
  | attempt (track : AlbumTrack)
deriving DecidableEq

def isSleep : DlEvent → Bool
  | DlEvent.sleep _ => true
  | DlEvent.attempt _ => false

/-- `for i, track in enumerate(tracks)` starting at index `i`: sleep the
delay before every track except the first (`if i > 0`). -/
def album_dl_events_from (env : Option String) :
    Nat → List AlbumTrack → List DlEvent
  | _, [] => []
  | i, t :: ts =>
    (if 0 < i then [DlEvent.sleep (tidal_track_delay env)] else []) ++
      (DlEvent.attempt t :: album_dl_events_from env (i + 1) ts)

/-- The event trace of the album-download loop over its track list. -/
def album_download_events (env : Option String) (tracks : List AlbumTrack) :
    List DlEvent :=
  album_dl_events_from env 0 tracks

/-- One entry of the `errors` list of the album-download response. -/
structure TrackError where
  track_id : Nat
  title : String
  error : String
deriving DecidableEq

/-- The per-track loop of `download_album`: each track download either
yields a result (appended to `results`) or raises (appended to `errors`
with the track's id, title and failure text); a failure never stops the
loop.  `dl` is the oracle for `_download_track_sync` on one track. -/
def download_album_loop (dl : AlbumTrack → Except String String) :
    List AlbumTrack → List String × List TrackError
  | [] => ([], [])
  | t :: ts =>
    let rest := download_album_loop dl ts
    match dl t with
    | Except.ok r => (r :: rest.1, rest.2)
    | Except.error e => (rest.1, ⟨t.id, t.title, e⟩ :: rest.2)

/-- The JSON body returned by `POST /download/album`. -/
structure AlbumDownloadResponse where
  album_id : Nat
  album_title : String
  artist : String
  total_tracks : Nat
  downloaded : Nat
  failed : Nat
  tracks : List String
  errors : List TrackError
deriving DecidableEq

/-- The aggregate response of `download_album` over a retained track
list. -/
def download_album_response (album_id : Nat) (album_title artist : String)
    (dl : AlbumTrack → Except String String) (tracks : List AlbumTrack) :
    AlbumDownloadResponse :=
  let r := download_album_loop dl tracks
  { album_id := album_id
    album_title := album_title
    artist := artist
    total_tracks := tracks.length
    downloaded := r.1.length
    failed := r.2.length
    tracks := r.1
    errors := r.2 }

/-- `True` when the oracle reports that downloading this track raises. -/
def dlFails (dl : AlbumTrack → Except String String) (t : AlbumTrack) : Bool :=
  match dl t with
  | Except.ok _ => false
  | Except.error _ => true

/-! ## Concrete fixtures used by witnesses -/

/-- A concrete successful `yt-dlp` info dict. -/
def wInfo : YInfo :=
  { url := some "http-upstream"
    formats := []
    audio_ext := some "webm"
    duration := some 200
    title := some "t"
    artist := some "a"
    uploader := some "up"
    abr := some 128
    acodec := some "opus" }

/-- A concrete page oracle: every page reports `limit = 100` and
`totalNumberOfItems = 150`, with one ISRC-bearing entry and one bare
entry. -/
def wPages : Nat → AlbumItemsPage :=
  fun _ => ⟨[⟨some ⟨1, "s", some "ISRC1"⟩⟩, ⟨none⟩], 100, 150⟩

/-! # Helper lemmas -/

theorem head?_dropWhile_not {α : Type} (p : α → Bool) (l : List α) (c : α)
    (h : (l.dropWhile p).head? = some c) : p c = false := by
  induction l with
  | nil => simp [List.dropWhile] at h
  | cons a t ih =>
    rw [List.dropWhile_cons] at h
    by_cases hp : p a
    · rw [if_pos hp] at h; exact ih h
    · rw [if_neg hp] at h
      simp only [List.head?_cons, Option.some.injEq] at h
      subst h
      simpa using hp

theorem getLast?_dropWhile_eq {α : Type} (p : α → Bool) (l : List α) (c : α)
    (h : (l.dropWhile p).getLast? = some c) : l.getLast? = some c := by
  induction l with
  | nil => simp [List.dropWhile] at h
  | cons a t ih =>
    rw [List.dropWhile_cons] at h
    by_cases hp : p a
    · rw [if_pos hp] at h
      cases t with
      | nil => simp [List.dropWhile] at h
      | cons b t2 => rw [List.getLast?_cons_cons]; exact ih h
    · rw [if_neg hp] at h; exact h

theorem strip_chars_head (cs s : List Char) (c : Char)
    (h : (strip_chars cs s).head? = some c) : cs.contains c = false := by
  unfold strip_chars at h
  rw [List.head?_reverse] at h
  have h2 := getLast?_dropWhile_eq _ _ _ h
  rw [List.getLast?_reverse] at h2
  exact head?_dropWhile_not _ _ _ h2

theorem strip_chars_last (cs s : List Char) (c : Char)
    (h : (strip_chars cs s).getLast? = some c) : cs.contains c = false := by
  unfold strip_chars at h
  rw [List.getLast?_reverse] at h
  exact head?_dropWhile_not _ _ _ h

theorem foldl_replaceChar (cs : List Char) (s : List Char) :
    cs.foldl (fun acc c => replaceChar c acc) s =
      s.map (fun a => cs.foldl (fun x c => if x = c then '_' else x) a) := by
  induction cs generalizing s with
  | nil => simp
  | cons c cs ih =>
    simp only [List.foldl_cons]
    rw [ih (replaceChar c s)]
    simp [replaceChar, List.map_map, Function.comp]

theorem charFold_invalid (a : Char) :
    invalid_fs_chars.foldl (fun x c => if x = c then '_' else x) a =
      if invalid_fs_chars.contains a then '_' else a := by
  rcases eq_or_ne a '<' with h | h1
  · subst h; decide
  rcases eq_or_ne a '>' with h | h2
  · subst h; decide
  rcases eq_or_ne a ':' with h | h3
  · subst h; decide
  rcases eq_or_ne a '\"' with h | h4
  · subst h; decide
  rcases eq_or_ne a '/' with h | h5
  · subst h; decide
  rcases eq_or_ne a '\\' with h | h6
  · subst h; decide
  rcases eq_or_ne a '|' with h | h7
  · subst h; decide
  rcases eq_or_ne a '?' with h | h8
  · subst h; decide
  rcases eq_or_ne a '*' with h | h9
  · subst h; decide
  simp [invalid_fs_chars, h1, h2, h3, h4, h5, h6, h7, h8, h9]

theorem replace_invalid_eq_map (s : List Char) :
    replace_invalid s =
      s.map (fun a => if invalid_fs_chars.contains a then '_' else a) := by
  rw [replace_invalid, foldl_replaceChar]
  exact List.map_congr_left (fun a _ => charFold_invalid a)

/-! # Claim theorems -/

/-- C2 (counterexample): the spec's example is wrong — `"My: Song? "`
sanitizes to `"My_ Song_"` (the trailing space is stripped, not replaced
by an underscore), not to `"My_ Song__"`. -/
theorem sanitize_example_cex :
    sanitize_path_component "My: Song? " = "My_ Song_" ∧
    sanitize_path_component "My: Song? " ≠ "My_ Song__" := by
  constructor
  · rfl
  · decide

/-- C2 (amended): for every path segment, each occurrence of a character
from `<>:"/\|?*` is replaced with an underscore and the result then has
leading/trailing dots and spaces stripped (so no leading/trailing dot or
space remains); the input `"My: Song? "` sanitizes to `"My_ Song_"`. -/
theorem sanitize_path_component_correct (s : String) :
    sanitize_path_component s =
      String.mk (strip_chars ['.', ' ']
        (s.toList.map (fun a => if invalid_fs_chars.contains a then '_' else a))) ∧
    (∀ c, (sanitize_path_component s).toList.head? = some c →
      c ≠ '.' ∧ c ≠ ' ') ∧
    (∀ c, (sanitize_path_component s).toList.getLast? = some c →
      c ≠ '.' ∧ c ≠ ' ') ∧
    sanitize_path_component "My: Song? " = "My_ Song_" := by
  refine ⟨?_, ?_, ?_, rfl⟩
  · rw [sanitize_path_component, replace_invalid_eq_map]
  · intro c h
    have hc : (['.', ' '] : List Char).contains c = false := by
      apply strip_chars_head ['.', ' '] (replace_invalid s.toList)
      simpa [sanitize_path_component] using h
    simpa using hc
  · intro c h
    have hc : (['.', ' '] : List Char).contains c = false := by
      apply strip_chars_last ['.', ' '] (replace_invalid s.toList)
      simpa [sanitize_path_component] using h
    simpa using hc

/-- C2 witness: the amended theorem evaluated at the example input. -/
theorem sanitize_path_component_correct_witness :
    sanitize_path_component "My: Song? " = "My_ Song_" ∧
    ('M' ≠ '.' ∧ 'M' ≠ ' ') ∧ ('_' ≠ '.' ∧ '_' ≠ ' ') :=
  ⟨(sanitize_path_component_correct "My: Song? ").2.2.2,
   (sanitize_path_component_correct "My: Song? ").2.1 'M' rfl,
   (sanitize_path_component_correct "My: Song? ").2.2.1 '_' rfl⟩

theorem download_album_loop_errors (dl : AlbumTrack → Except String String)
    (tracks : List AlbumTrack) :
    (download_album_loop dl tracks).2 =
      tracks.filterMap (fun t =>
        match dl t with
        | Except.error e => some (⟨t.id, t.title, e⟩ : TrackError)
        | Except.ok _ => none) := by
  induction tracks with
  | nil => rfl
  | cons t ts ih =>
    cases hd : dl t with
    | ok r => simp [download_album_loop, hd, List.filterMap_cons, ih]
    | error e => simp [download_album_loop, hd, List.filterMap_cons, ih]

theorem download_album_loop_lengths (dl : AlbumTrack → Except String String)
    (tracks : List AlbumTrack) :
    (download_album_loop dl tracks).1.length + (download_album_loop dl tracks).2.length =
      tracks.length := by
  induction tracks with
  | nil => rfl
  | cons t ts ih =>
    cases hd : dl t with
    | ok r => simp [download_album_loop, hd]; omega
    | error e => simp [download_album_loop, hd]; omega

theorem download_album_loop_failed (dl : AlbumTrack → Except String String)
    (tracks : List AlbumTrack) :
    (download_album_loop dl tracks).2.length = (tracks.filter (dlFails dl)).length := by
  induction tracks with
  | nil => rfl
  | cons t ts ih =>
    cases hd : dl t with
    | ok r => simp [download_album_loop, hd, dlFails, List.filter_cons, ih]
    | error e => simp [download_album_loop, hd, dlFails, List.filter_cons, ih]

/-- C4: album download aggregation — with `N` retained tracks of which
`M` fail, the response reports `total_tracks = N`, `downloaded = N - M`,
`failed = M`, and `errors` has exactly `M` entries, each carrying the
failing track's id, title and error text; every track is accounted for
(no failure aborts the batch: `downloaded + failed = N`). -/
theorem album_download_aggregation (album_id : Nat) (album_title artist : String)
    (dl : AlbumTrack → Except String String) (tracks : List AlbumTrack) :
    (download_album_response album_id album_title artist dl tracks).total_tracks =
      tracks.length ∧
    (download_album_response album_id album_title artist dl tracks).failed =
      (tracks.filter (dlFails dl)).length ∧
    (download_album_response album_id album_title artist dl tracks).downloaded =
      tracks.length - (tracks.filter (dlFails dl)).length ∧
    (download_album_response album_id album_title artist dl tracks).downloaded +
      (download_album_response album_id album_title artist dl tracks).failed =
      tracks.length ∧
    (download_album_response album_id album_title artist dl tracks).errors =
      tracks.filterMap (fun t =>
        match dl t with
        | Except.error e => some (⟨t.id, t.title, e⟩ : TrackError)
        | Except.ok _ => none) ∧
    (download_album_response album_id album_title artist dl tracks).errors.length =
      (download_album_response album_id album_title artist dl tracks).failed := by
  have h1 := download_album_loop_lengths dl tracks
  have h2 := download_album_loop_failed dl tracks
  have h3 := download_album_loop_errors dl tracks
  refine ⟨rfl, ?_, ?_, ?_, ?_, ?_⟩
  · simpa [download_album_response] using h2
  · simp only [download_album_response]
    omega
  · simp only [download_album_response]
    omega
  · simpa [download_album_response] using h3
  · simp [download_album_response]

theorem tmp_path_of_ne (p : String) : tmp_path_of p ≠ p := by
  intro h
  have hlen := congrArg String.length h
  rw [tmp_path_of, String.length_append] at hlen
  have h4 : (".tmp" : String).length = 4 := rfl
  omega

/-- C6: step 5 of the download — for a `.flac` extension the
container-extraction pass is attempted and on failure the temp file is
plainly renamed; for every other extension the temp file is always
renamed; in every outcome exactly one final file exists at the expected
path (the extraction output, or the raw temp contents) and no `.tmp`
file is left behind. -/
theorem finalize_download_no_tmp (ext : String) (eo : ExtractFlacOutcome)
    (fs : FS) (final data : String) :
    listGet (finalize_download ext eo (fs_write fs (tmp_path_of final) data)
        (tmp_path_of final) final) (tmp_path_of final) = none ∧
    (∃ c, listGet (finalize_download ext eo (fs_write fs (tmp_path_of final) data)
        (tmp_path_of final) final) final = some c) ∧
    (ext ≠ ".flac" →
      listGet (finalize_download ext eo (fs_write fs (tmp_path_of final) data)
        (tmp_path_of final) final) final = some data) ∧
    (ext = ".flac" → eo = ExtractFlacOutcome.fails →
      listGet (finalize_download ext eo (fs_write fs (tmp_path_of final) data)
        (tmp_path_of final) final) final = some data) ∧
    (∀ d, ext = ".flac" → eo = ExtractFlacOutcome.ok d →
      listGet (finalize_download ext eo (fs_write fs (tmp_path_of final) data)
        (tmp_path_of final) final) final = some d) := by
  have hne : tmp_path_of final ≠ final := tmp_path_of_ne final
  have hne2 : final ≠ tmp_path_of final := fun h => hne h.symm
  have hget : listGet (fs_write fs (tmp_path_of final) data) (tmp_path_of final) =
      some data := listGet_listInsert _ _ _
  have hmove :
      fs_move (fs_write fs (tmp_path_of final) data) (tmp_path_of final) final =
        fs_write (fs_remove (fs_write fs (tmp_path_of final) data)
          (tmp_path_of final)) final data := by
    rw [fs_move, hget]
  have hmove_tmp :
      listGet (fs_move (fs_write fs (tmp_path_of final) data) (tmp_path_of final) final)
        (tmp_path_of final) = none := by
    rw [hmove, fs_write, listGet_listInsert_ne _ _ _ _ hne, fs_remove, listGet_listErase]
  have hmove_final :
      listGet (fs_move (fs_write fs (tmp_path_of final) data) (tmp_path_of final) final)
        final = some data := by
    rw [hmove, fs_write, listGet_listInsert]
  by_cases hf : ext = ".flac"
  · cases eo with
    | ok d =>
      refine ⟨?_, ⟨d, ?_⟩, ?_, ?_, ?_⟩
      · rw [finalize_download, if_pos hf, flac_finalize, fs_remove, listGet_listErase]
      · rw [finalize_download, if_pos hf, flac_finalize, fs_remove,
          listGet_listErase_ne _ _ _ hne2, fs_write, listGet_listInsert]
      · intro hc; exact absurd hf hc
      · intro _ hc; cases hc
      · intro d2 _ hc
        cases hc
        rw [finalize_download, if_pos hf, flac_finalize, fs_remove,
          listGet_listErase_ne _ _ _ hne2, fs_write, listGet_listInsert]
    | fails =>
      refine ⟨?_, ⟨data, ?_⟩, ?_, ?_, ?_⟩
      · rw [finalize_download, if_pos hf, flac_finalize]; exact hmove_tmp
      · rw [finalize_download, if_pos hf, flac_finalize]; exact hmove_final
      · intro hc; exact absurd hf hc
      · intro _ _; rw [finalize_download, if_pos hf, flac_finalize]; exact hmove_final
      · intro d2 _ hc; cases hc
  · refine ⟨?_, ⟨data, ?_⟩, ?_, ?_, ?_⟩
    · rw [finalize_download, if_neg hf]; exact hmove_tmp
    · rw [finalize_download, if_neg hf]; exact hmove_final
    · intro _; rw [finalize_download, if_neg hf]; exact hmove_final
    · intro hc; exact absurd hc hf
    · intro d2 hc; exact absurd hc hf

/-- C6 witness: both outcomes of the extraction pass at a concrete file
system. -/
theorem finalize_download_no_tmp_witness :
    listGet (finalize_download ".flac" ExtractFlacOutcome.fails
        (fs_write [] (tmp_path_of "a.flac") "RAW") (tmp_path_of "a.flac") "a.flac")
      (tmp_path_of "a.flac") = none ∧
    listGet (finalize_download ".flac" ExtractFlacOutcome.fails
        (fs_write [] (tmp_path_of "a.flac") "RAW") (tmp_path_of "a.flac") "a.flac")
      "a.flac" = some "RAW" ∧
    listGet (finalize_download ".m4a" ExtractFlacOutcome.fails
        (fs_write [] (tmp_path_of "b.m4a") "RAW2") (tmp_path_of "b.m4a") "b.m4a")
      "b.m4a" = some "RAW2" ∧
    listGet (finalize_download ".flac" (ExtractFlacOutcome.ok "FLAC")
        (fs_write [] (tmp_path_of "c.flac") "RAW3") (tmp_path_of "c.flac") "c.flac")
      "c.flac" = some "FLAC" :=
  ⟨(finalize_download_no_tmp ".flac" ExtractFlacOutcome.fails [] "a.flac" "RAW").1,
   (finalize_download_no_tmp ".flac" ExtractFlacOutcome.fails [] "a.flac" "RAW").2.2.2.1
     rfl rfl,
   (finalize_download_no_tmp ".m4a" ExtractFlacOutcome.fails [] "b.m4a" "RAW2").2.2.1
     (by decide),
   (finalize_download_no_tmp ".flac" (ExtractFlacOutcome.ok "FLAC") [] "c.flac"
     "RAW3").2.2.2.2 "FLAC" rfl rfl⟩

/-- C3: device-code poll error mapping — `authorization_pending` and
`slow_down` yield a pending response carrying that code; `invalid_grant`
yields exactly the fixed expired-code message; an unknown error code
yields the generic "Authorization failed (<code>)" message; when the
underlying call raises, the same table is applied by substring match
against the lowercased failure text, and an unmatched raised failure
surfaces as a 500. -/
theorem device_code_poll_error_mapping (st : YTState) (uid ci cs : String) :
    (∀ e, e = "authorization_pending" ∨ e = "slow_down" →
      auth_device_code_poll st uid ci cs (TokenOutcome.errorField e) =
        (PollResponse.pending e, st)) ∧
    (auth_device_code_poll st uid ci cs (TokenOutcome.errorField "invalid_grant") =
      (PollResponse.errorMsg
        "The sign-in code has expired or was already used. Please start over.", st)) ∧
    (∀ e, ¬(e = "authorization_pending" ∨ e = "slow_down") →
      listGet ERROR_MESSAGES e = none →
      auth_device_code_poll st uid ci cs (TokenOutcome.errorField e) =
        (PollResponse.errorMsg
          ("Authorization failed (" ++ e ++ "). Please try again."), st)) ∧
    (∀ msg f, containsSub (strLower msg) "authorization_pending" = false →
      lookupErrorBySubstring (strLower msg) = some f →
      auth_device_code_poll st uid ci cs (TokenOutcome.raises msg) =
        (PollResponse.errorMsg f, st)) ∧
    (∀ msg, containsSub (strLower msg) "authorization_pending" = false →
      lookupErrorBySubstring (strLower msg) = none →
      auth_device_code_poll st uid ci cs (TokenOutcome.raises msg) =
        (PollResponse.http500 ("Failed to poll device code: " ++ msg), st)) := by
  refine ⟨?_, ?_, ?_, ?_, ?_⟩
  · intro e he
    rw [auth_device_code_poll, if_pos he]
  · rfl
  · intro e he hl
    rw [auth_device_code_poll, if_neg he, hl]
    rfl
  · intro msg f h1 h2
    simp only [auth_device_code_poll, h1, Bool.false_eq_true, if_false, h2]
  · intro msg h1 h2
    simp only [auth_device_code_poll, h1, Bool.false_eq_true, if_false, h2]

/-- C3 witness: each mapping case at a concrete poll. -/
theorem device_code_poll_error_mapping_witness :
    (auth_device_code_poll ⟨[], [], [], []⟩ "u" "ci" "cs"
        (TokenOutcome.errorField "authorization_pending") =
      (PollResponse.pending "authorization_pending", ⟨[], [], [], []⟩)) ∧
    (auth_device_code_poll ⟨[], [], [], []⟩ "u" "ci" "cs"
        (TokenOutcome.errorField "invalid_grant") =
      (PollResponse.errorMsg
        "The sign-in code has expired or was already used. Please start over.",
        ⟨[], [], [], []⟩)) ∧
    (auth_device_code_poll ⟨[], [], [], []⟩ "u" "ci" "cs"
        (TokenOutcome.errorField "bogus_code") =
      (PollResponse.errorMsg
        "Authorization failed (bogus_code). Please try again.", ⟨[], [], [], []⟩)) ∧
    (auth_device_code_poll ⟨[], [], [], []⟩ "u" "ci" "cs"
        (TokenOutcome.raises "HTTP 400: Invalid_Grant") =
      (PollResponse.errorMsg
        "The sign-in code has expired or was already used. Please start over.",
        ⟨[], [], [], []⟩)) ∧
    (auth_device_code_poll ⟨[], [], [], []⟩ "u" "ci" "cs"
        (TokenOutcome.raises "boom") =
      (PollResponse.http500 "Failed to poll device code: boom", ⟨[], [], [], []⟩)) := by
  have h := device_code_poll_error_mapping ⟨[], [], [], []⟩ "u" "ci" "cs"
  exact ⟨h.1 "authorization_pending" (Or.inl rfl), h.2.1,
    h.2.2.1 "bogus_code" (by decide) rfl,
    h.2.2.2.1 "HTTP 400: Invalid_Grant"
      "The sign-in code has expired or was already used. Please start over."
      (by decide) (by decide),
    h.2.2.2.2 "boom" (by decide) (by decide)⟩

theorem max?_eq_none_of_min?_eq_none (l : List Nat) (h : l.min? = none) :
    l.max? = none := by
  cases l with
  | nil => rfl
  | cons a t => simp [List.min?] at h

/-- C7: the quality-to-format-selector mapping is a total deterministic
function whose selectors denote exactly the §4.2 table policies (LOW:
best audio at most 64 kbps else worst available; MEDIUM: at most 128,
else at most 192, else best; HIGH: at most 256, else best; LOSSLESS:
best available, no ceiling), and every unrecognized quality string maps
to the HIGH selector. -/
theorem quality_mapping_total (q : String) (abrs : List Nat) :
    evalSelector (selector_alts (selectFormat q)) abrs = spec_policy q abrs ∧
    (q ≠ "LOW" → q ≠ "MEDIUM" → q ≠ "HIGH" → q ≠ "LOSSLESS" →
      selectFormat q = selectFormat "HIGH") := by
  by_cases hl : q = "LOW"
  · subst hl
    refine ⟨?_, fun h _ _ _ => absurd rfl h⟩
    have hsf : selector_alts (selectFormat "LOW") =
        [FormatAlt.bestAudioLe 64, FormatAlt.worstAudio, FormatAlt.bestAudio] := rfl
    rw [hsf, spec_policy, if_pos rfl]
    cases h64 : (abrs.filter (fun a => a ≤ 64)).max? with
    | some r => simp [evalSelector, evalAlt, h64]
    | none =>
      cases hmin : abrs.min? with
      | some r => simp [evalSelector, evalAlt, h64, hmin]
      | none =>
        simp [evalSelector, evalAlt, h64, hmin,
          max?_eq_none_of_min?_eq_none abrs hmin]
  by_cases hm : q = "MEDIUM"
  · subst hm
    refine ⟨?_, fun _ h _ _ => absurd rfl h⟩
    have hsf : selector_alts (selectFormat "MEDIUM") =
        [FormatAlt.bestAudioLe 128, FormatAlt.bestAudioLe 192, FormatAlt.bestAudio] := rfl
    rw [hsf, spec_policy, if_neg (by decide), if_pos rfl]
    cases h128 : (abrs.filter (fun a => a ≤ 128)).max? with
    | some r => simp [evalSelector, evalAlt, h128]
    | none =>
      cases h192 : (abrs.filter (fun a => a ≤ 192)).max? with
      | some r => simp [evalSelector, evalAlt, h128, h192]
      | none =>
        cases hall : abrs.max? with
        | some r => simp [evalSelector, evalAlt, h128, h192, hall]
        | none => simp [evalSelector, evalAlt, h128, h192, hall]
  by_cases hh : q = "HIGH"
  · subst hh
    refine ⟨?_, fun _ _ h _ => absurd rfl h⟩
    have hsf : selector_alts (selectFormat "HIGH") =
        [FormatAlt.bestAudioLe 256, FormatAlt.bestAudio] := rfl
    rw [hsf, spec_policy, if_neg (by decide), if_neg (by decide),
      if_neg (by decide)]
    cases h256 : (abrs.filter (fun a => a ≤ 256)).max? with
    | some r => simp [evalSelector, evalAlt, h256]
    | none =>
      cases hall : abrs.max? with
      | some r => simp [evalSelector, evalAlt, h256, hall]
      | none => simp [evalSelector, evalAlt, h256, hall]
  by_cases hx : q = "LOSSLESS"
  · subst hx
    refine ⟨?_, fun _ _ _ h => absurd rfl h⟩
    have hsf : selector_alts (selectFormat "LOSSLESS") =
        [FormatAlt.bestAudio, FormatAlt.bestAudio] := rfl
    rw [hsf, spec_policy, if_neg (by decide), if_neg (by decide), if_pos rfl]
    cases hmax : abrs.max? with
    | some r => simp [evalSelector, evalAlt, hmax]
    | none => simp [evalSelector, evalAlt, hmax]
  · have hget : listGet format_map q = none := by
      have e1 : ¬ ("LOW" : String) = q := fun h => hl h.symm
      have e2 : ¬ ("MEDIUM" : String) = q := fun h => hm h.symm
      have e3 : ¬ ("HIGH" : String) = q := fun h => hh h.symm
      have e4 : ¬ ("LOSSLESS" : String) = q := fun h => hx h.symm
      simp [format_map, listGet, e1, e2, e3, e4]
    have hsel : selectFormat q = "ba[abr<=256]/ba" := by
      rw [selectFormat, hget]
      rfl
    constructor
    · rw [hsel, spec_policy, if_neg hl, if_neg hm, if_neg hx]
      have hsf : selector_alts "ba[abr<=256]/ba" =
          [FormatAlt.bestAudioLe 256, FormatAlt.bestAudio] := rfl
      rw [hsf]
      cases h256 : (abrs.filter (fun a => a ≤ 256)).max? with
      | some r => simp [evalSelector, evalAlt, h256]
      | none =>
        cases hall : abrs.max? with
        | some r => simp [evalSelector, evalAlt, h256, hall]
        | none => simp [evalSelector, evalAlt, h256, hall]
    · intro _ _ _ _
      rw [hsel]
      rfl

/-- C7 witness: an unrecognized quality falls back to the HIGH policy. -/
theorem quality_mapping_total_witness :
    evalSelector (selector_alts (selectFormat "ULTRA")) [64, 300] =
      spec_policy "ULTRA" [64, 300] ∧
    selectFormat "ULTRA" = selectFormat "HIGH" := by
  have h := quality_mapping_total "ULTRA" [64, 300]
  exact ⟨h.1, h.2 (by decide) (by decide) (by decide) (by decide)⟩

theorem extractStreamUrl_direct (i : YInfo) (uurl : String)
    (hu : i.url = some uurl) :
    extractStreamUrl (ExtractOutcome.info i) = Except.ok (uurl, i) := by
  simp [extractStreamUrl, hu]

theorem stream_resolve_ok (cache : StreamCache) (now : Nat)
    (extract : String → ExtractOutcome) (key q : String) (i : YInfo)
    (uurl : String) (hx : extract (selectFormat q) = ExtractOutcome.info i)
    (hu : i.url = some uurl) :
    stream_resolve cache now extract key q =
      (Except.ok (buildStreamEntry uurl i now),
        listInsert cache key (buildStreamEntry uurl i now)) := by
  unfold stream_resolve
  rw [hx, extractStreamUrl_direct i uurl hu]

theorem get_stream_hit (cache : StreamCache) (now : Nat)
    (extract : String → ExtractOutcome) (u v q : String) (e : StreamEntry)
    (hhit : listGet cache (u ++ ":" ++ v) = some e)
    (hfresh : now < e.expires_at) :
    get_stream_url_sync cache now extract u v q = (Except.ok e, cache) := by
  simp [get_stream_url_sync, hhit, hfresh]

theorem get_stream_stale (cache : StreamCache) (now : Nat)
    (extract : String → ExtractOutcome) (u v q : String) (e : StreamEntry)
    (hhit : listGet cache (u ++ ":" ++ v) = some e)
    (hstale : ¬ now < e.expires_at) :
    get_stream_url_sync cache now extract u v q =
      stream_resolve cache now extract (u ++ ":" ++ v) q := by
  simp [get_stream_url_sync, hhit, hstale]

theorem get_stream_miss (cache : StreamCache) (now : Nat)
    (extract : String → ExtractOutcome) (u v q : String)
    (hmiss : listGet cache (u ++ ":" ++ v) = none) :
    get_stream_url_sync cache now extract u v q =
      stream_resolve cache now extract (u ++ ":" ++ v) q := by
  simp [get_stream_url_sync, hmiss]

theorem buildStreamEntry_expires (u : String) (i : YInfo) (now : Nat) :
    (buildStreamEntry u i now).expires_at = now + 18000 := rfl

/-- C5: a stream entry resolved at time `T` is stored with expiry
`T + 18000`; every lookup strictly before that expiry returns it
unchanged with the cache untouched; every lookup after the expiry misses
and re-resolves through the extractor, yielding a fresh entry with a
fresh expiry. -/
theorem stream_cache_ttl (cache : StreamCache)
    (extract : String → ExtractOutcome) (T : Nat) (u v q : String)
    (i : YInfo) (uurl : String)
    (hx : extract (selectFormat q) = ExtractOutcome.info i)
    (hu : i.url = some uurl)
    (hmiss : listGet cache (u ++ ":" ++ v) = none) :
    get_stream_url_sync cache T extract u v q =
      (Except.ok (buildStreamEntry uurl i T),
        listInsert cache (u ++ ":" ++ v) (buildStreamEntry uurl i T)) ∧
    (buildStreamEntry uurl i T).expires_at = T + 18000 ∧
    (∀ t, t < T + 18000 →
      get_stream_url_sync
          (listInsert cache (u ++ ":" ++ v) (buildStreamEntry uurl i T))
          t extract u v q =
        (Except.ok (buildStreamEntry uurl i T),
          listInsert cache (u ++ ":" ++ v) (buildStreamEntry uurl i T))) ∧
    (∀ t, T + 18000 < t →
      get_stream_url_sync
          (listInsert cache (u ++ ":" ++ v) (buildStreamEntry uurl i T))
          t extract u v q =
        (Except.ok (buildStreamEntry uurl i t),
          listInsert (listInsert cache (u ++ ":" ++ v) (buildStreamEntry uurl i T))
            (u ++ ":" ++ v) (buildStreamEntry uurl i t))) := by
  refine ⟨?_, rfl, ?_, ?_⟩
  · rw [get_stream_miss cache T extract u v q hmiss,
      stream_resolve_ok cache T extract _ q i uurl hx hu]
  · intro t ht
    have hhit : listGet (listInsert cache (u ++ ":" ++ v) (buildStreamEntry uurl i T))
        (u ++ ":" ++ v) = some (buildStreamEntry uurl i T) :=
      listGet_listInsert _ _ _
    have hfresh : t < (buildStreamEntry uurl i T).expires_at := by
      rw [buildStreamEntry_expires]; exact ht
    exact get_stream_hit _ t extract u v q _ hhit hfresh
  · intro t ht
    have hhit : listGet (listInsert cache (u ++ ":" ++ v) (buildStreamEntry uurl i T))
        (u ++ ":" ++ v) = some (buildStreamEntry uurl i T) :=
      listGet_listInsert _ _ _
    have hstale : ¬ t < (buildStreamEntry uurl i T).expires_at := by
      rw [buildStreamEntry_expires]; omega
    rw [get_stream_stale _ t extract u v q _ hhit hstale,
      stream_resolve_ok _ t extract _ q i uurl hx hu]

/-- C5 witness: an entry resolved at `T = 1000` is served unchanged at
`T + 17999` and re-resolved (with a fresh expiry) at `T + 18001`. -/
theorem stream_cache_ttl_witness :
    (buildStreamEntry "http-upstream" wInfo 1000).expires_at = 19000 ∧
    get_stream_url_sync
        (listInsert [] ("u" ++ ":" ++ "v") (buildStreamEntry "http-upstream" wInfo 1000))
        18999 (fun _ => ExtractOutcome.info wInfo) "u" "v" "HIGH" =
      (Except.ok (buildStreamEntry "http-upstream" wInfo 1000),
        listInsert [] ("u" ++ ":" ++ "v") (buildStreamEntry "http-upstream" wInfo 1000)) ∧
    get_stream_url_sync
        (listInsert [] ("u" ++ ":" ++ "v") (buildStreamEntry "http-upstream" wInfo 1000))
        19001 (fun _ => ExtractOutcome.info wInfo) "u" "v" "HIGH" =
      (Except.ok (buildStreamEntry "http-upstream" wInfo 19001),
        listInsert
          (listInsert [] ("u" ++ ":" ++ "v") (buildStreamEntry "http-upstream" wInfo 1000))
          ("u" ++ ":" ++ "v") (buildStreamEntry "http-upstream" wInfo 19001)) := by
  have h := stream_cache_ttl [] (fun _ => ExtractOutcome.info wInfo) 1000 "u" "v"
    "HIGH" wInfo "http-upstream" rfl rfl rfl
  exact ⟨h.2.1, h.2.2.1 18999 (by omega), h.2.2.2 19001 (by omega)⟩

theorem stream_resolve_error_cache (cache : StreamCache) (now : Nat)
    (extract : String → ExtractOutcome) (key q : String) (err : StreamErr)
    (h : (stream_resolve cache now extract key q).1 = Except.error err) :
    (stream_resolve cache now extract key q).2 = cache ∧
    ∃ d, err = StreamErr.http 502 d := by
  cases hx : extractStreamUrl (extract (selectFormat q)) with
  | error m =>
    have heq : stream_resolve cache now extract key q =
        (Except.error (StreamErr.http 502 ("Failed to extract stream: " ++ m)),
          cache) := by
      simp [stream_resolve, hx]
    rw [heq] at h ⊢
    simp at h
    exact ⟨rfl, "Failed to extract stream: " ++ m, h.symm⟩
  | ok p =>
    obtain ⟨uu, ii⟩ := p
    have heq : stream_resolve cache now extract key q =
        (Except.ok (buildStreamEntry uu ii now),
          listInsert cache key (buildStreamEntry uu ii now)) := by
      simp [stream_resolve, hx]
    rw [heq] at h
    simp at h

/-- C10: stream resolution is atomic on failure — whenever
`_get_stream_url_sync` fails, the failure is a 502 and the stream cache
is left exactly as it was, so a later request re-attempts extraction. -/
theorem stream_resolution_atomic_on_failure (cache : StreamCache) (now : Nat)
    (extract : String → ExtractOutcome) (u v q : String) (err : StreamErr)
    (h : (get_stream_url_sync cache now extract u v q).1 = Except.error err) :
    (get_stream_url_sync cache now extract u v q).2 = cache ∧
    ∃ d, err = StreamErr.http 502 d := by
  cases hc : listGet cache (u ++ ":" ++ v) with
  | some e =>
    by_cases hf : now < e.expires_at
    · rw [get_stream_hit cache now extract u v q e hc hf] at h
      simp at h
    · rw [get_stream_stale cache now extract u v q e hc hf] at h ⊢
      exact stream_resolve_error_cache cache now extract _ q err h
  | none =>
    rw [get_stream_miss cache now extract u v q hc] at h ⊢
    exact stream_resolve_error_cache cache now extract _ q err h

/-- C10 witness: a raising extractor leaves an empty cache empty and
surfaces a 502. -/
theorem stream_resolution_atomic_on_failure_witness :
    (get_stream_url_sync [] 0 (fun _ => ExtractOutcome.raises "boom")
        "u" "v" "HIGH").2 = [] ∧
    ∃ d, StreamErr.http 502 "Failed to extract stream: boom" =
      StreamErr.http 502 d :=
  stream_resolution_atomic_on_failure [] 0 (fun _ => ExtractOutcome.raises "boom")
    "u" "v" "HIGH" (StreamErr.http 502 "Failed to extract stream: boom") rfl

/-- C1 (counterexample): after `/auth/restore` for user `"u"`, the
previously cached stream entry under `"u:v"` is still in the stream
cache, the user passes the authentication check (a fresh handle is
built), and the old stream entry is served on the next stream request —
so stream cache entries are not invalidated together with the client
handle. -/
theorem stream_cache_survives_restore_cex :
    ((auth_restore (fun _ => true)
        ⟨[("u", "old")], [], [("u", ⟨"old", none⟩)],
          [("u:v", ⟨"http-old", "m4a", 100, "t", "a", 18000, 128, "mp4a"⟩)]⟩
        "u" ⟨some "new", none, none⟩).2.streamCache =
      [("u:v", ⟨"http-old", "m4a", 100, "t", "a", 18000, 128, "mp4a"⟩)]) ∧
    ((get_ytmusic (fun _ => true)
        (auth_restore (fun _ => true)
          ⟨[("u", "old")], [], [("u", ⟨"old", none⟩)],
            [("u:v", ⟨"http-old", "m4a", 100, "t", "a", 18000, 128, "mp4a"⟩)]⟩
          "u" ⟨some "new", none, none⟩).2 "u").1 =
      GetYT.built ⟨"new", none⟩) ∧
    ((get_stream_url_sync
        (auth_restore (fun _ => true)
          ⟨[("u", "old")], [], [("u", ⟨"old", none⟩)],
            [("u:v", ⟨"http-old", "m4a", 100, "t", "a", 18000, 128, "mp4a"⟩)]⟩
          "u" ⟨some "new", none, none⟩).2.streamCache
        100 (fun _ => ExtractOutcome.raises "unreachable") "u" "v" "HIGH").1 =
      Except.ok ⟨"http-old", "m4a", 100, "t", "a", 18000, 128, "mp4a"⟩) := by
  refine ⟨rfl, rfl, rfl⟩

theorem restore_write_instances (st : YTState) (uid oj : String)
    (body : RestoreBody) :
    (restore_write st uid oj body).instances = st.instances := by
  unfold restore_write
  cases body.client_id with
  | none => rfl
  | some ci =>
    cases body.client_secret with
    | none => rfl
    | some cs =>
      by_cases h : ci = "" ∨ cs = ""
      · simp [h]
      · simp [h]

theorem restore_write_streamCache (st : YTState) (uid oj : String)
    (body : RestoreBody) :
    (restore_write st uid oj body).streamCache = st.streamCache := by
  unfold restore_write
  cases body.client_id with
  | none => rfl
  | some ci =>
    cases body.client_secret with
    | none => rfl
    | some cs =>
      by_cases h : ci = "" ∨ cs = ""
      · simp [h]
      · simp [h]

theorem auth_restore_ok_state (parseOk : String → Bool) (st : YTState)
    (uid : String) (body : RestoreBody)
    (h : (auth_restore parseOk st uid body).1 = RestoreResult.ok) :
    (auth_restore parseOk st uid body).2 =
      invalidate_ytmusic (restore_write st uid ((body.oauth_json).getD "") body) uid := by
  obtain ⟨bo, bc, bs⟩ := body
  unfold auth_restore at h ⊢
  cases bo with
  | none => simp at h
  | some oj =>
    by_cases h1 : oj = ""
    · simp [h1] at h
    · by_cases h2 : parseOk oj
      · simp [h1, h2]
      · simp [h1, h2] at h

/-- C1 (amended): whenever credentials for a user change — a successful
`/auth/restore`, an `/auth/clear`, or a successful device-code poll —
that user's cached Catalog Client Instance is invalidated (removed from
the handle cache), but the user's Stream Cache Entries are NOT
invalidated: the stream cache is left completely unchanged, and an
unexpired previously cached entry can still be served afterwards. -/
theorem credential_change_invalidates_handle_only (parseOk : String → Bool)
    (st : YTState) (uid : String) (body : RestoreBody) (ci cs tok : String) :
    ((auth_restore parseOk st uid body).1 = RestoreResult.ok →
      listGet (auth_restore parseOk st uid body).2.instances uid = none ∧
      (auth_restore parseOk st uid body).2.streamCache = st.streamCache) ∧
    (listGet (auth_clear st uid).instances uid = none ∧
      (auth_clear st uid).streamCache = st.streamCache) ∧
    (listGet (auth_device_code_poll st uid ci cs
        (TokenOutcome.success tok)).2.instances uid = none ∧
      (auth_device_code_poll st uid ci cs
        (TokenOutcome.success tok)).2.streamCache = st.streamCache) := by
  refine ⟨?_, ⟨?_, rfl⟩, ?_, rfl⟩
  · intro hok
    rw [auth_restore_ok_state parseOk st uid body hok]
    constructor
    · exact listGet_listErase _ _
    · exact restore_write_streamCache st uid _ body
  · exact listGet_listErase _ _
  · exact listGet_listErase _ _

/-- C1 witness: the amended invariant at a concrete restore. -/
theorem credential_change_invalidates_handle_only_witness :
    (listGet (auth_restore (fun _ => true)
        ⟨[("u", "old")], [], [("u", ⟨"old", none⟩)], []⟩
        "u" ⟨some "new", none, none⟩).2.instances "u" = none ∧
      (auth_restore (fun _ => true)
        ⟨[("u", "old")], [], [("u", ⟨"old", none⟩)], []⟩
        "u" ⟨some "new", none, none⟩).2.streamCache = []) ∧
    listGet (auth_clear ⟨[("u", "old")], [], [("u", ⟨"old", none⟩)], []⟩
      "u").instances "u" = none := by
  have h := credential_change_invalidates_handle_only (fun _ => true)
    ⟨[("u", "old")], [], [("u", ⟨"old", none⟩)], []⟩ "u"
    ⟨some "new", none, none⟩ "ci" "cs" "tok"
  exact ⟨h.1 rfl, h.2.1.1⟩

theorem build_from_files_not_cached (loadOk : String → Bool) (st : YTState)
    (uid : String) (h : Handle) :
    build_from_files loadOk st uid ≠ GetYT.cached h := by
  unfold build_from_files
  cases listGet st.oauthFiles uid with
  | none => simp
  | some txt =>
    by_cases hp : loadOk txt
    · simp [hp]
    · simp [hp]

theorem get_ytmusic_of_uncached (loadOk : String → Bool) (st : YTState)
    (uid : String) (h : listGet st.instances uid = none) :
    (get_ytmusic loadOk st uid).1 = build_from_files loadOk st uid := by
  unfold get_ytmusic
  rw [h]
  cases hb : build_from_files loadOk st uid with
  | cached h2 => rfl
  | built h2 => rfl
  | err401 d => rfl

/-- C9: after a successful `/auth/restore` or an `/auth/clear` for a
user, the next `_get_ytmusic` call for that user never returns a
previously cached handle — it reconstructs the handle from the on-disk
credential files (or fails with a 401). -/
theorem handle_rebuilt_after_credential_change (loadOk : String → Bool)
    (st : YTState) (uid : String) (body : RestoreBody) :
    ((auth_restore loadOk st uid body).1 = RestoreResult.ok →
      (get_ytmusic loadOk (auth_restore loadOk st uid body).2 uid).1 =
        build_from_files loadOk (auth_restore loadOk st uid body).2 uid ∧
      ∀ h, (get_ytmusic loadOk (auth_restore loadOk st uid body).2 uid).1 ≠
        GetYT.cached h) ∧
    ((get_ytmusic loadOk (auth_clear st uid) uid).1 =
        build_from_files loadOk (auth_clear st uid) uid ∧
      ∀ h, (get_ytmusic loadOk (auth_clear st uid) uid).1 ≠ GetYT.cached h) := by
  constructor
  · intro hok
    have hun : listGet (auth_restore loadOk st uid body).2.instances uid = none := by
      rw [auth_restore_ok_state loadOk st uid body hok]
      exact listGet_listErase _ _
    have heq := get_ytmusic_of_uncached loadOk _ uid hun
    exact ⟨heq, fun h hc =>
      build_from_files_not_cached loadOk _ uid h (heq ▸ hc)⟩
  · have hun : listGet (auth_clear st uid).instances uid = none :=
      listGet_listErase _ _
    have heq := get_ytmusic_of_uncached loadOk _ uid hun
    exact ⟨heq, fun h hc =>
      build_from_files_not_cached loadOk _ uid h (heq ▸ hc)⟩

/-- C9 witness: a concrete restore and clear, after which the next
lookup builds a fresh handle rather than serving the cached one. -/
theorem handle_rebuilt_after_credential_change_witness :
    ((get_ytmusic (fun _ => true)
        (auth_restore (fun _ => true)
          ⟨[("u", "old")], [], [("u", ⟨"old", none⟩)], []⟩
          "u" ⟨some "new", none, none⟩).2 "u").1 =
      build_from_files (fun _ => true)
        (auth_restore (fun _ => true)
          ⟨[("u", "old")], [], [("u", ⟨"old", none⟩)], []⟩
          "u" ⟨some "new", none, none⟩).2 "u") ∧
    ((get_ytmusic (fun _ => true)
        (auth_clear ⟨[("u", "old")], [], [("u", ⟨"old", none⟩)], []⟩ "u") "u").1 =
      build_from_files (fun _ => true)
        (auth_clear ⟨[("u", "old")], [], [("u", ⟨"old", none⟩)], []⟩ "u") "u") := by
  have h := handle_rebuilt_after_credential_change (fun _ => true)
    ⟨[("u", "old")], [], [("u", ⟨"old", none⟩)], []⟩ "u" ⟨some "new", none, none⟩
  exact ⟨(h.1 rfl).1, h.2.1⟩

theorem mem_keepTracks_isrc (its : List AlbumItem) (tr : AlbumTrack)
    (h : tr ∈ keepTracks its) : tr.isrc.isSome = true := by
  unfold keepTracks at h
  rw [List.mem_filterMap] at h
  obtain ⟨ai, _, hf⟩ := h
  cases hai : ai.item with
  | none => rw [hai] at hf; cases hf
  | some t2 =>
    rw [hai] at hf
    cases hi : t2.isrc with
    | none => simp [hi] at hf
    | some s =>
      simp [hi] at hf
      subst hf
      simp [hi]

theorem mem_fetch_isrc (pages : Nat → AlbumItemsPage) :
    ∀ (fuel offset : Nat) (tr : AlbumTrack),
      tr ∈ fetch_album_tracks pages fuel offset → tr.isrc.isSome = true := by
  intro fuel
  induction fuel with
  | zero => intro o tr h; simp [fetch_album_tracks] at h
  | succ fuel ih =>
    intro o tr h
    simp only [fetch_album_tracks] at h
    by_cases hc : (pages o).totalNumberOfItems ≤ o + (pages o).limit
    · rw [if_pos hc] at h
      exact mem_keepTracks_isrc _ _ h
    · rw [if_neg hc] at h
      rw [List.mem_append] at h
      rcases h with h | h
      · exact mem_keepTracks_isrc _ _ h
      · exact ih _ _ h

theorem fetch_album_tracks_batches (pages : Nat → AlbumItemsPage) (T : Nat)
    (hlim : ∀ o, (pages o).limit = 100)
    (htot : ∀ o, (pages o).totalNumberOfItems = T) :
    ∀ (fuel k : Nat), max 1 ((T + 99) / 100) - k ≤ fuel →
      k < max 1 ((T + 99) / 100) →
      fetch_album_tracks pages fuel (100 * k) =
        (List.range' k (max 1 ((T + 99) / 100) - k)).flatMap
          (fun j => keepTracks (pages (100 * j)).items) := by
  intro fuel
  induction fuel with
  | zero =>
    intro k h1 h2
    omega
  | succ fuel ih =>
    intro k h1 h2
    simp only [fetch_album_tracks]
    rw [hlim, htot]
    by_cases hstop : T ≤ 100 * k + 100
    · rw [if_pos hstop]
      have hone : max 1 ((T + 99) / 100) - k = 1 := by omega
      rw [hone]
      have hr : List.range' k 1 = [k] := rfl
      rw [hr, List.flatMap_cons]
      simp
    · rw [if_neg hstop]
      have h100 : 100 * k + 100 = 100 * (k + 1) := by ring
      have hk3 : k + 1 < max 1 ((T + 99) / 100) := by omega
      have hk4 : max 1 ((T + 99) / 100) - (k + 1) ≤ fuel := by omega
      rw [h100, ih (k + 1) hk4 hk3]
      have hsplit : max 1 ((T + 99) / 100) - k =
          (max 1 ((T + 99) / 100) - (k + 1)) + 1 := by omega
      rw [hsplit, List.range'_succ, List.flatMap_cons]

theorem countP_album_dl_events_from (env : Option String) :
    ∀ (ts : List AlbumTrack) (i : Nat), 0 < i →
      (album_dl_events_from env i ts).countP isSleep = ts.length := by
  intro ts
  induction ts with
  | nil => intro i _; rfl
  | cons t ts ih =>
    intro i hi
    simp [album_dl_events_from, hi, List.countP_cons, isSleep,
      ih (i + 1) (by omega)]

theorem countP_album_download_events (env : Option String)
    (tracks : List AlbumTrack) :
    (album_download_events env tracks).countP isSleep = tracks.length - 1 := by
  cases tracks with
  | nil => rfl
  | cons t ts =>
    unfold album_download_events
    simp only [album_dl_events_from]
    rw [if_neg (by omega : ¬ (0 : Nat) < 0)]
    simp [List.countP_cons, isSleep, countP_album_dl_events_from env ts 1 (by omega)]

theorem album_download_events_head (env : Option String) (t : AlbumTrack)
    (ts : List AlbumTrack) :
    (album_download_events env (t :: ts)).head? = some (DlEvent.attempt t) := rfl

/-- C8: album orchestration — the track listing is paged through in
batches of 100 until the reported total item count is reached (the
retained tracks are exactly the ISRC-bearing items of the pages at
offsets 0, 100, 200, …), only ISRC-bearing items are retained, and the
configurable delay (default "3" seconds) is waited exactly between
consecutive track downloads and never before the first one. -/
theorem album_orchestration (pages : Nat → AlbumItemsPage) (T fuel : Nat)
    (env : Option String) (tracks : List AlbumTrack) (t0 : AlbumTrack)
    (ts : List AlbumTrack)
    (hlim : ∀ o, (pages o).limit = 100)
    (htot : ∀ o, (pages o).totalNumberOfItems = T)
    (hfuel : max 1 ((T + 99) / 100) ≤ fuel) :
    fetch_album_tracks pages fuel 0 =
      (List.range (max 1 ((T + 99) / 100))).flatMap
        (fun j => keepTracks (pages (100 * j)).items) ∧
    (∀ tr, tr ∈ fetch_album_tracks pages fuel 0 → tr.isrc.isSome = true) ∧
    (album_download_events env tracks).countP isSleep = tracks.length - 1 ∧
    (album_download_events env (t0 :: ts)).head? = some (DlEvent.attempt t0) ∧
    tidal_track_delay none = "3" := by
  refine ⟨?_, ?_, countP_album_download_events env tracks,
    album_download_events_head env t0 ts, rfl⟩
  · have h := fetch_album_tracks_batches pages T hlim htot fuel 0
      (by omega) (by omega)
    rw [List.range_eq_range']
    simpa using h
  · intro tr h
    exact mem_fetch_isrc pages fuel 0 tr h

/-- C8 witness: two pages of a 150-item album, and a two-track download
trace with the default delay. -/
theorem album_orchestration_witness :
    fetch_album_tracks wPages 2 0 =
      (List.range (max 1 ((150 + 99) / 100))).flatMap
        (fun j => keepTracks (wPages (100 * j)).items) ∧
    (album_download_events none
        [⟨1, "a", none⟩, ⟨2, "b", none⟩]).countP isSleep = 1 ∧
    (album_download_events none
        ((⟨1, "a", none⟩ : AlbumTrack) :: [⟨2, "b", none⟩])).head? =
      some (DlEvent.attempt ⟨1, "a", none⟩) ∧
    tidal_track_delay none = "3" := by
  have h := album_orchestration wPages 150 2 none
    [⟨1, "a", none⟩, ⟨2, "b", none⟩] ⟨1, "a", none⟩ [⟨2, "b", none⟩]
    (fun o => rfl) (fun o => rfl) (by omega)
  exact ⟨h.1, by simpa using h.2.2.1, h.2.2.2.1, h.2.2.2.2⟩

end Lidify
